import Mathlib

/-!
Shallow embedding of the graphene `market_history` plugin
(`libraries/plugins/market_history/market_history_plugin.cpp`), together with
the data model it manipulates.

Conventions of the embedding:
* `fc::time_point_sec` values (block timestamps, bucket open times) are `Nat`
  seconds since the epoch.
* asset ids (`asset_id_type`) are `Nat`.
* amounts (`share_type`, which is `fc::safe<int64_t>` and traps instead of
  wrapping) are `Int`; none of the scenarios considered here approach the
  64-bit bound, so trapping arithmetic coincides with `Int` arithmetic.
* `bucket * max_history` at line 83 is a `uint32_t` product and therefore
  wraps modulo `2^32`; the embedding keeps the explicit `% 2^32`.
* the `bucket_index` multi-index container (ordered unique by `bucket_key`)
  is a `List BucketObject` kept sorted by the composite key; `find`,
  `create`, `modify`, `lower_bound` and the eviction iteration are embedded
  as list operations below.
-/

namespace MarketHistory

/-- A graphene `asset`: an amount tagged with an asset id. -/
structure Asset where
  amount : Int
  assetId : Nat
  deriving DecidableEq, Repr

/-- Modelled from the spec: the trade price for an accepted event is the
ratio `pays_amount / receives_amount` (base per quote), "retained as a
base/quote amount pair rather than a float". This embeds the graphene
`price` produced by `o.pays / o.receives` (its asset ids always coincide
with the bucket key's ids in this plugin, so only the amounts are kept). -/
structure Price where
  base : Int
  quote : Int
  deriving DecidableEq, Repr

/-- Modelled from the spec: "price comparison is done via cross-multiplication
to avoid precision loss" (graphene `price::operator<` on two prices of the
same asset pair compares `a.base.amount * b.quote.amount` with
`b.base.amount * a.quote.amount`). -/
def priceLt (a b : Price) : Prop :=
  a.base * b.quote < b.base * a.quote

instance (a b : Price) : Decidable (priceLt a b) :=
  inferInstanceAs (Decidable (_ < _))

/-- Non-strict companion of `priceLt` under the same cross-multiplied
comparison. -/
def priceLe (a b : Price) : Prop :=
  a.base * b.quote ≤ b.base * a.quote

instance (a b : Price) : Decidable (priceLe a b) :=
  inferInstanceAs (Decidable (_ ≤ _))

/-- The composite key of a bucket record: lines 85-102 fill `base`, `quote`,
`seconds` and `open` (renamed `openTime`, since `open` is a Lean keyword). -/
structure BucketKey where
  base : Nat
  quote : Nat
  seconds : Nat
  openTime : Nat
  deriving DecidableEq, Repr

/-- Modelled from the spec: keys "order lexicographically by
`(base_asset_id, quote_asset_id, bucket_seconds, open_time)`" — the ordering
of the `by_key` ordered-unique index that `lower_bound` and the eviction
scan rely on. -/
def keyLt (a b : BucketKey) : Bool :=
  a.base < b.base ||
    (a.base == b.base &&
      (a.quote < b.quote ||
        (a.quote == b.quote &&
          (a.seconds < b.seconds ||
            (a.seconds == b.seconds && a.openTime < b.openTime)))))

/-- The bucket record. Modelled from the spec for the parts outside `src/`
(the field list and the zero defaults of `market_history_plugin.hpp`): OHLC
prices stored as base/quote amount pairs plus cumulative volumes. -/
structure BucketObject where
  key : BucketKey
  high_base : Int := 0
  high_quote : Int := 0
  low_base : Int := 0
  low_quote : Int := 0
  open_base : Int := 0
  open_quote : Int := 0
  close_base : Int := 0
  close_quote : Int := 0
  base_volume : Int := 0
  quote_volume : Int := 0
  deriving DecidableEq, Repr

/-- Modelled from the spec: `bucket_object::high()` reconstructs the high
price from its amount pair. -/
def BucketObject.high (b : BucketObject) : Price :=
  { base := b.high_base, quote := b.high_quote }

/-- Modelled from the spec: `bucket_object::low()`. -/
def BucketObject.low (b : BucketObject) : Price :=
  { base := b.low_base, quote := b.low_quote }

/-- Spec-side helper: the open price of a record as an amount pair. -/
def BucketObject.open_price (b : BucketObject) : Price :=
  { base := b.open_base, quote := b.open_quote }

/-- Spec-side helper: the close price of a record as an amount pair. -/
def BucketObject.close_price (b : BucketObject) : Price :=
  { base := b.close_base, quote := b.close_quote }

/-- `fill_order_operation` restricted to the fields the plugin reads:
`o.pays` and `o.receives`. -/
structure FillOrderOperation where
  pays : Asset
  receives : Asset
  deriving DecidableEq, Repr

/-- The operation variants relevant to the plugin's visitor
`operation_process_fill_order`: the fill-order variant is handled at lines
73-163, every other variant (among them the witness-creation and
witness-pay-withdrawal operations of `witness_evaluator.hpp`) falls into the
catch-all template at lines 70-71. -/
inductive Operation where
  | fill_order (o : FillOrderOperation)
  | witness_create
  | witness_withdraw_pay
  | other (tag : Nat)
  deriving DecidableEq, Repr

/-- Exact-match lookup in the `by_key` index (`by_key_idx.find(key)`,
line 105). -/
def findByKey (key : BucketKey) : List BucketObject → Option BucketObject
  | [] => none
  | b :: rest => if b.key = key then some b else findByKey key rest

/-- `db.create<bucket_object>` with the initializer of lines 108-120: the
fields of a fresh record default to zero, so the `+=` on the volumes
assigns the trade's amounts. -/
def createBucket (key : BucketKey) (trade_price : Price) : BucketObject :=
  { key := key
    quote_volume := 0 + trade_price.quote
    base_volume := 0 + trade_price.base
    open_base := trade_price.base
    open_quote := trade_price.quote
    close_base := trade_price.base
    close_quote := trade_price.quote
    high_base := trade_price.base
    high_quote := trade_price.quote
    low_base := trade_price.base
    low_quote := trade_price.quote }

/-- The `db.modify` lambda of lines 126-141. The source assigns `close`
first and then copies `b.close_*` (equal to the trade price by then) into
the high/low fields; both `if` conditions read the not-yet-modified
high/low fields, so the flattened record update below is the same function. -/
def updateBucket (trade_price : Price) (b : BucketObject) : BucketObject :=
  { b with
    base_volume := b.base_volume + trade_price.base
    quote_volume := b.quote_volume + trade_price.quote
    close_base := trade_price.base
    close_quote := trade_price.quote
    high_base := if priceLt b.high trade_price then trade_price.base else b.high_base
    high_quote := if priceLt b.high trade_price then trade_price.quote else b.high_quote
    low_base := if priceLt trade_price b.low then trade_price.base else b.low_base
    low_quote := if priceLt trade_price b.low then trade_price.quote else b.low_quote }

/-- Insertion into the key-ordered unique index (the effect of `db.create`
on the `by_key` ordered view). -/
def insertByKey (b : BucketObject) : List BucketObject → List BucketObject
  | [] => [b]
  | c :: rest => if keyLt c.key b.key then c :: insertByKey b rest else b :: c :: rest

/-- In-place modification of the (unique) record with the given key, the
effect of `db.modify(*itr, ...)` after a successful `find`. -/
def modifyByKey (key : BucketKey) (f : BucketObject → BucketObject) :
    List BucketObject → List BucketObject
  | [] => []
  | b :: rest => if b.key = key then f b :: rest else b :: modifyByKey key f rest

/-- The eviction `while` loop of lines 150-160: starting from the
`lower_bound` position, remove records while they match the
`(base, quote, seconds)` group and have `key.open < cutoff`; stop at the
first record that fails the test (the remainder of the list is kept). -/
def evictLoop (key : BucketKey) (bucket : Nat) (cutoff : Nat) :
    List BucketObject → List BucketObject
  | [] => []
  | b :: rest =>
    if b.key.base = key.base ∧ b.key.quote = key.quote ∧
        b.key.seconds = bucket ∧ b.key.openTime < cutoff then
      evictLoop key bucket cutoff rest
    else
      b :: rest

/-- Lines 147-160: reset the probe key's `open` to `time_point_sec()` (= 0),
position `lower_bound` on the sorted index — on a key-sorted list this is
the suffix after the elements strictly below the probe — and run the
removal loop there. -/
def evictOld (key : BucketKey) (bucket : Nat) (cutoff : Nat)
    (store : List BucketObject) : List BucketObject :=
  store.takeWhile (fun b => keyLt b.key key) ++
    evictLoop key bucket cutoff (store.dropWhile (fun b => keyLt b.key key))

/-- One iteration of the `for( auto bucket : buckets )` loop, lines 82-161.
`cutoff` is computed at line 83 as `fc::time_point() + fc::seconds(bucket *
max_history)`: an absolute time of `bucket * max_history` seconds after the
epoch (the product is `uint32_t` arithmetic, hence the `% 2^32`), not an
offset from `_now`. -/
def processBucket (maxHistory : Nat) (now : Nat) (o : FillOrderOperation)
    (store : List BucketObject) (bucket : Nat) : List BucketObject :=
  let cutoff : Nat := (bucket * maxHistory) % 2 ^ 32
  let base := o.pays.assetId
  let quote := o.receives.assetId
  if base > quote then
    store
  else
    let trade_price : Price := { base := o.pays.amount, quote := o.receives.amount }
    let key : BucketKey :=
      { base := base, quote := quote, seconds := bucket
        openTime := now / bucket * bucket }
    let store' :=
      match findByKey key store with
      | none => insertByKey (createBucket key trade_price) store
      | some b => modifyByKey key (fun _ => updateBucket trade_price b) store
    if maxHistory ≠ 0 then
      evictOld { base := base, quote := quote, seconds := bucket, openTime := 0 }
        bucket cutoff store'
    else
      store'

/-- Plugin configuration: the tracked bucket durations (`flat_set<uint32_t>
_tracked_buckets`, enumerated in ascending order) and
`_maximum_history_per_bucket_size`. -/
structure Config where
  buckets : List Nat
  maxHistory : Nat
  deriving DecidableEq, Repr

/-- `operation_process_fill_order::operator()(const fill_order_operation&)`,
lines 73-163: the per-bucket body folded over the tracked durations. -/
def processFill (cfg : Config) (now : Nat) (o : FillOrderOperation)
    (store : List BucketObject) : List BucketObject :=
  cfg.buckets.foldl (processBucket cfg.maxHistory now o) store

/-- The visitor dispatch: the catch-all template at lines 70-71 does nothing
for every non-fill variant. -/
def processOperation (cfg : Config) (now : Nat) (store : List BucketObject) :
    Operation → List BucketObject
  | .fill_order o => processFill cfg now o store
  | .witness_create => store
  | .witness_withdraw_pay => store
  | .other _ => store

/-- Recognizer for the fill-order variant. -/
def Operation.isFill : Operation → Bool
  | .fill_order _ => true
  | _ => false

/-- A signed block as the plugin sees it: its timestamp and the ordered list
of operations applied in it (`db.get_applied_operations()`). -/
structure SignedBlock where
  timestamp : Nat
  operations : List Operation
  deriving DecidableEq, Repr

/-- `market_history_plugin_impl::update_market_histories`, lines 169-178:
return immediately when `_maximum_history_per_bucket_size == 0` or the
tracked-bucket set is empty; otherwise visit every applied operation with
`operation_process_fill_order(_self, b.timestamp)`. -/
def update_market_histories (cfg : Config) (b : SignedBlock)
    (store : List BucketObject) : List BucketObject :=
  if cfg.maxHistory = 0 then store
  else if cfg.buckets = [] then store
  else b.operations.foldl (processOperation cfg b.timestamp) store

/-- Replay of an ordered block sequence from the empty store: the
`applied_block` callback fired once per committed block (line 217). -/
def replayBlocks (cfg : Config) (blocks : List SignedBlock) : List BucketObject :=
  blocks.foldl (fun s b => update_market_histories cfg b s) []

/-- A bucket record accumulated from a first trade (which creates the
record) followed by a list of further trades routed into the same slot. -/
def accumBucket (key : BucketKey) (p0 : Price) (ps : List Price) : BucketObject :=
  ps.foldl (fun b p => updateBucket p b) (createBucket key p0)

/-- Positivity of a trade price's amounts (every graphene fill carries
positive amounts on both sides). -/
def PosPrice (p : Price) : Prop :=
  0 < p.base ∧ 0 < p.quote

instance (p : Price) : Decidable (PosPrice p) :=
  inferInstanceAs (Decidable (0 < p.base ∧ 0 < p.quote))

/-- Positivity of the quote amounts of a record's four stored prices; this
is what makes the cross-multiplied comparison transitive. -/
def PosQuotes (b : BucketObject) : Prop :=
  0 < b.open_quote ∧ 0 < b.close_quote ∧ 0 < b.high_quote ∧ 0 < b.low_quote

/-- The spec's record invariant: `high() >= max(open_price, close_price,
low())` and `low() <= min(open_price, close_price, high())` under the
cross-multiplied comparison. -/
def recordInvariant (b : BucketObject) : Prop :=
  priceLe b.open_price b.high ∧ priceLe b.close_price b.high ∧
    priceLe b.low b.high ∧ priceLe b.low b.open_price ∧
    priceLe b.low b.close_price

/-- A sample fill of asset pair `(0, 1)` at price 2/1, used in the concrete
scenarios below. -/
def exampleFill : FillOrderOperation :=
  { pays := { amount := 2, assetId := 0 }, receives := { amount := 1, assetId := 1 } }

/-- `exampleFill` wrapped as an operation variant. -/
def exampleFillOp : Operation :=
  .fill_order exampleFill

/-- A fill of asset pair `(0, 1)` with the given pays/receives amounts,
i.e. trade price `pb / qb`. -/
def ohlcFill (pb qb : Int) : FillOrderOperation :=
  { pays := { amount := pb, assetId := 0 }, receives := { amount := qb, assetId := 1 } }

/-- The spec's OHLC scenario: trade prices 2/1, 3/1, 1/1 and 5/2 (= 2.5/1)
all landing in the 60-second bucket that opens at time 60 (block time 100),
with eviction disabled. -/
def ohlcStore : List BucketObject :=
  processFill ⟨[60], 0⟩ 100 (ohlcFill 5 2)
    (processFill ⟨[60], 0⟩ 100 (ohlcFill 1 1)
      (processFill ⟨[60], 0⟩ 100 (ohlcFill 3 1)
        (processFill ⟨[60], 0⟩ 100 (ohlcFill 2 1) [])))

/-- A degenerate fill whose pays and receives assets are the same asset
(id 5): one side of a matched trade of an asset against itself. -/
def degenA : FillOrderOperation :=
  { pays := { amount := 2, assetId := 5 }, receives := { amount := 1, assetId := 5 } }

/-- The symmetric counterparty event of `degenA` (pays and receives
swapped). -/
def degenB : FillOrderOperation :=
  { pays := { amount := 1, assetId := 5 }, receives := { amount := 2, assetId := 5 } }

/-- The spec's eviction-boundary scenario, run at realistic timestamps:
`bucket_seconds = 60`, `max_history = 3`, fills in the buckets opening at
596340 (= 600000 - 61*60), 599820 (= 600000 - 3*60) and 600000. -/
def c1Store : List BucketObject :=
  replayBlocks ⟨[60], 3⟩
    [⟨596340, [exampleFillOp]⟩, ⟨599820, [exampleFillOp]⟩, ⟨600000, [exampleFillOp]⟩]

/-- The same configuration run right after the epoch: fills in the buckets
opening at 60 and 600. -/
def c1EpochStore : List BucketObject :=
  replayBlocks ⟨[60], 3⟩ [⟨60, [exampleFillOp]⟩, ⟨600, [exampleFillOp]⟩]

/-! ### Helper lemmas about the store and the record update -/

theorem keyLt_irrefl (a : BucketKey) : keyLt a a = false := by
  simp [keyLt]

theorem keyLt_ne {a b : BucketKey} (h : keyLt a b = true) : a ≠ b := by
  rintro rfl
  rw [keyLt_irrefl] at h
  exact Bool.false_ne_true h

theorem findByKey_eq_some_key {key : BucketKey} {l : List BucketObject}
    {b : BucketObject} (h : findByKey key l = some b) : b.key = key := by
  induction l with
  | nil => simp [findByKey] at h
  | cons c rest ih =>
    rw [findByKey] at h
    by_cases hc : c.key = key
    · rw [if_pos hc] at h
      cases h
      exact hc
    · rw [if_neg hc] at h
      exact ih h

theorem findByKey_insertByKey (b : BucketObject) (l : List BucketObject) :
    findByKey b.key (insertByKey b l) = some b := by
  induction l with
  | nil => simp [insertByKey, findByKey]
  | cons c rest ih =>
    rw [insertByKey]
    by_cases h : keyLt c.key b.key
    · rw [if_pos h, findByKey, if_neg (keyLt_ne h)]
      exact ih
    · rw [if_neg h, findByKey, if_pos rfl]

theorem findByKey_modifyByKey (key : BucketKey) (f : BucketObject → BucketObject)
    {l : List BucketObject} {b : BucketObject}
    (h : findByKey key l = some b) (hk : (f b).key = key) :
    findByKey key (modifyByKey key f l) = some (f b) := by
  induction l with
  | nil => simp [findByKey] at h
  | cons c rest ih =>
    rw [findByKey] at h
    rw [modifyByKey]
    by_cases hc : c.key = key
    · rw [if_pos hc] at h
      cases h
      rw [if_pos hc, findByKey, if_pos hk]
    · rw [if_neg hc] at h
      rw [if_neg hc, findByKey, if_neg hc]
      exact ih h

theorem updateBucket_key (p : Price) (b : BucketObject) :
    (updateBucket p b).key = b.key := rfl

theorem updateBucket_base_volume (p : Price) (b : BucketObject) :
    (updateBucket p b).base_volume = b.base_volume + p.base := rfl

theorem updateBucket_quote_volume (p : Price) (b : BucketObject) :
    (updateBucket p b).quote_volume = b.quote_volume + p.quote := rfl

theorem updateBucket_open_price (p : Price) (b : BucketObject) :
    (updateBucket p b).open_price = b.open_price := rfl

theorem updateBucket_close_price (p : Price) (b : BucketObject) :
    (updateBucket p b).close_price = p := rfl

theorem updateBucket_high (p : Price) (b : BucketObject) :
    (updateBucket p b).high = if priceLt b.high p then p else b.high := by
  simp only [updateBucket, BucketObject.high]
  by_cases h : priceLt { base := b.high_base, quote := b.high_quote } p
  · rw [if_pos h, if_pos h, if_pos h]
  · rw [if_neg h, if_neg h, if_neg h]

theorem updateBucket_low (p : Price) (b : BucketObject) :
    (updateBucket p b).low = if priceLt p b.low then p else b.low := by
  simp only [updateBucket, BucketObject.low]
  by_cases h : priceLt p { base := b.low_base, quote := b.low_quote }
  · rw [if_pos h, if_pos h, if_pos h]
  · rw [if_neg h, if_neg h, if_neg h]

theorem processBucket_skip (mh now d : Nat) (o : FillOrderOperation)
    (store : List BucketObject) (h : o.pays.assetId > o.receives.assetId) :
    processBucket mh now o store d = store := by
  unfold processBucket
  rw [if_pos h]

theorem processFill_skip (cfg : Config) (now : Nat) (o : FillOrderOperation)
    (store : List BucketObject) (h : o.pays.assetId > o.receives.assetId) :
    processFill cfg now o store = store := by
  unfold processFill
  induction cfg.buckets generalizing store with
  | nil => rfl
  | cons d rest ih =>
    rw [List.foldl_cons, processBucket_skip _ _ _ _ _ h]
    exact ih store

/-! ### Helper lemmas about the cross-multiplied price order -/

theorem priceLe_refl (p : Price) : priceLe p p :=
  le_refl _

theorem priceLe_of_lt {a b : Price} (h : priceLt a b) : priceLe a b :=
  le_of_lt h

theorem priceLe_of_not_lt {a b : Price} (h : ¬ priceLt a b) : priceLe b a :=
  not_lt.mp h

theorem priceLe_trans {a b c : Price} (hab : priceLe a b) (hbc : priceLe b c)
    (haq : 0 ≤ a.quote) (hbq : 0 < b.quote) (hcq : 0 ≤ c.quote) :
    priceLe a c := by
  unfold priceLe at hab hbc ⊢
  have h1 := mul_le_mul_of_nonneg_right hab hcq
  have h2 := mul_le_mul_of_nonneg_right hbc haq
  have h3 : a.base * c.quote * b.quote ≤ c.base * a.quote * b.quote := by
    nlinarith [h1, h2]
  exact le_of_mul_le_mul_right h3 hbq

theorem createBucket_invariant (key : BucketKey) (p : Price) (hp : PosPrice p) :
    recordInvariant (createBucket key p) ∧ PosQuotes (createBucket key p) := by
  refine ⟨⟨?_, ?_, ?_, ?_, ?_⟩, hp.2, hp.2, hp.2, hp.2⟩ <;>
    exact priceLe_refl p

theorem updateBucket_invariant {p : Price} {b : BucketObject}
    (hp : PosPrice p) (hb : PosQuotes b) (hinv : recordInvariant b) :
    recordInvariant (updateBucket p b) ∧ PosQuotes (updateBucket p b) := by
  obtain ⟨hOH, hCH, hLH, hLO, hLC⟩ := hinv
  obtain ⟨hoq, hcq, hhq, hlq⟩ := hb
  have hpq : (0 : Int) < p.quote := hp.2
  constructor
  · rw [recordInvariant, updateBucket_open_price, updateBucket_close_price,
      updateBucket_high, updateBucket_low]
    by_cases hH : priceLt b.high p <;> by_cases hL : priceLt p b.low <;>
      simp only [if_pos, if_neg, hH, hL, ite_true, ite_false]
    · exact ⟨priceLe_trans hOH (priceLe_of_lt hH) (le_of_lt hoq) hhq (le_of_lt hpq),
        priceLe_refl p, priceLe_refl p,
        priceLe_trans (priceLe_of_lt hL) hLO (le_of_lt hpq) hlq (le_of_lt hoq),
        priceLe_refl p⟩
    · exact ⟨priceLe_trans hOH (priceLe_of_lt hH) (le_of_lt hoq) hhq (le_of_lt hpq),
        priceLe_refl p, priceLe_of_not_lt hL,
        hLO, priceLe_of_not_lt hL⟩
    · exact ⟨hOH, priceLe_of_not_lt hH,
        priceLe_of_not_lt hH,
        priceLe_trans (priceLe_of_lt hL) hLO (le_of_lt hpq) hlq (le_of_lt hoq),
        priceLe_refl p⟩
    · exact ⟨hOH, priceLe_of_not_lt hH, hLH, hLO, priceLe_of_not_lt hL⟩
  · refine ⟨hoq, hpq, ?_, ?_⟩
    · by_cases hH : priceLt b.high p <;> simp [updateBucket, hH, hhq, hpq]
    · by_cases hL : priceLt p b.low <;> simp [updateBucket, hL, hlq, hpq]

theorem accumFold_invariant (ps : List Price) (b : BucketObject)
    (hs : ∀ p ∈ ps, PosPrice p) (hb : PosQuotes b) (hinv : recordInvariant b) :
    recordInvariant (ps.foldl (fun b p => updateBucket p b) b) ∧
      PosQuotes (ps.foldl (fun b p => updateBucket p b) b) := by
  induction ps generalizing b with
  | nil => exact ⟨hinv, hb⟩
  | cons p rest ih =>
    rw [List.foldl_cons]
    have hp : PosPrice p := hs p (List.mem_cons_self p rest)
    obtain ⟨hinv', hb'⟩ := updateBucket_invariant hp hb hinv
    exact ih _ (fun q hq => hs q (List.mem_cons_of_mem p hq)) hb' hinv'

theorem accumFold_base_volume (ps : List Price) (b : BucketObject) :
    (ps.foldl (fun b p => updateBucket p b) b).base_volume =
      b.base_volume + (ps.map Price.base).sum := by
  induction ps generalizing b with
  | nil => simp
  | cons p rest ih =>
    rw [List.foldl_cons, ih, updateBucket_base_volume]
    simp [add_assoc]

theorem accumFold_quote_volume (ps : List Price) (b : BucketObject) :
    (ps.foldl (fun b p => updateBucket p b) b).quote_volume =
      b.quote_volume + (ps.map Price.quote).sum := by
  induction ps generalizing b with
  | nil => simp
  | cons p rest ih =>
    rw [List.foldl_cons, ih, updateBucket_quote_volume]
    simp [add_assoc]

/-! ### The claims -/

/-- C1: the claim says eviction removes exactly the records of the same
group with `open_time < now - d * max_history` and removes the 61-interval
old record of the spec's boundary scenario. The code computes the cutoff at
line 83 as `fc::time_point() + fc::seconds(bucket * max_history)` — an
absolute time `d * max_history` seconds after the epoch, independent of
`now` — so at realistic timestamps the eviction pass never removes
anything: after fills at 596340 (= 600000 - 61*60), 599820 and 600000, both
old records are still present, although the claim requires the first one to
be gone; the same configuration replayed right after the epoch does evict
the bucket opening at 60 (60 < 3*60), exhibiting the epoch-relative
boundary actually implemented. -/
theorem C1_eviction_cutoff_epoch_relative :
    (findByKey ⟨0, 1, 60, 596340⟩ c1Store).isSome = true ∧
    (findByKey ⟨0, 1, 60, 599820⟩ c1Store).isSome = true ∧
    596340 + 61 * 60 = 600000 ∧ 599820 + 3 * 60 = 600000 ∧
    findByKey ⟨0, 1, 60, 60⟩ c1EpochStore = none ∧
    (findByKey ⟨0, 1, 60, 600⟩ c1EpochStore).isSome = true := by
  decide

/-- C2 counterexample: the claim says that with `max_history = 0` trade
events are still aggregated and only eviction is disabled. But
`update_market_histories` (line 171) returns before visiting any operation
when `_maximum_history_per_bucket_size == 0`: a block carrying a fill
leaves the store empty, while the same block with `max_history = 1` creates
a bucket record. -/
theorem C2_counterexample_no_aggregation :
    update_market_histories ⟨[60], 0⟩ ⟨600000, [exampleFillOp]⟩ [] = [] ∧
    update_market_histories ⟨[60], 1⟩ ⟨600000, [exampleFillOp]⟩ [] ≠ [] := by
  decide

/-- C2 (amended): when `max_history = 0`, processing a block is a complete
no-op — the early return at line 171 skips aggregation and eviction alike,
so the store is left unchanged. -/
theorem C2_zero_max_history_noop (cfg : Config) (b : SignedBlock)
    (store : List BucketObject) (h : cfg.maxHistory = 0) :
    update_market_histories cfg b store = store := by
  rw [update_market_histories, if_pos h]

/-- Witness for C2 (amended) at a concrete block with a fill operation. -/
theorem C2_zero_max_history_noop_witness :
    update_market_histories ⟨[60], 0⟩ ⟨600000, [exampleFillOp]⟩ [] = [] :=
  C2_zero_max_history_noop ⟨[60], 0⟩ ⟨600000, [exampleFillOp]⟩ [] rfl

/-- C3: for a symmetric pair of fill events (A, B) with swapped pays and
receives where A has `pays.asset_id > receives.asset_id`, event A is
discarded by the `base > quote` filter of line 93 before touching the
store, so processing A and then B leaves exactly the state of processing B
alone. -/
theorem C3_symmetric_pair_dedup (cfg : Config) (now : Nat)
    (store : List BucketObject) (A B : FillOrderOperation)
    (hA : A.pays.assetId > A.receives.assetId)
    (hBp : B.pays = A.receives) (hBr : B.receives = A.pays) :
    processFill cfg now B (processFill cfg now A store) =
      processFill cfg now B store ∧
    processFill cfg now A store = store := by
  have h := processFill_skip cfg now A store hA
  exact ⟨by rw [h], h⟩

/-- Witness for C3: a concrete symmetric pair on asset pair (0, 1). -/
theorem C3_symmetric_pair_dedup_witness :
    processFill ⟨[60], 3⟩ 600000 ⟨⟨2, 0⟩, ⟨1, 1⟩⟩
        (processFill ⟨[60], 3⟩ 600000 ⟨⟨1, 1⟩, ⟨2, 0⟩⟩ []) =
      processFill ⟨[60], 3⟩ 600000 ⟨⟨2, 0⟩, ⟨1, 1⟩⟩ [] ∧
    processFill ⟨[60], 3⟩ 600000 ⟨⟨1, 1⟩, ⟨2, 0⟩⟩ [] = [] :=
  C3_symmetric_pair_dedup ⟨[60], 3⟩ 600000 [] ⟨⟨1, 1⟩, ⟨2, 0⟩⟩ ⟨⟨2, 0⟩, ⟨1, 1⟩⟩
    (by decide) rfl rfl

/-- C4: an accepted fill that maps to an existing record is updated in
place — close becomes the trade price, the trade's amounts are added to the
volumes, high is replaced exactly when the trade price is strictly greater
under the cross-multiplied comparison, low exactly when strictly less, and
open is untouched; and the spec's concrete scenario (prices 2/1, 3/1, 1/1,
5/2 in one bucket) ends with open 2/1, close 5/2, high 3/1, low 1/1. -/
theorem C4_update_in_place (mh now d : Nat) (o : FillOrderOperation)
    (store : List BucketObject) (b : BucketObject)
    (hmh : mh = 0)
    (hfilter : ¬ o.pays.assetId > o.receives.assetId)
    (hfind : findByKey ⟨o.pays.assetId, o.receives.assetId, d, now / d * d⟩ store =
      some b) :
    findByKey ⟨o.pays.assetId, o.receives.assetId, d, now / d * d⟩
        (processBucket mh now o store d) =
      some (updateBucket ⟨o.pays.amount, o.receives.amount⟩ b) ∧
    (updateBucket ⟨o.pays.amount, o.receives.amount⟩ b).close_price =
      ⟨o.pays.amount, o.receives.amount⟩ ∧
    (updateBucket ⟨o.pays.amount, o.receives.amount⟩ b).base_volume =
      b.base_volume + o.pays.amount ∧
    (updateBucket ⟨o.pays.amount, o.receives.amount⟩ b).quote_volume =
      b.quote_volume + o.receives.amount ∧
    (updateBucket ⟨o.pays.amount, o.receives.amount⟩ b).high =
      (if priceLt b.high ⟨o.pays.amount, o.receives.amount⟩
        then ⟨o.pays.amount, o.receives.amount⟩ else b.high) ∧
    (updateBucket ⟨o.pays.amount, o.receives.amount⟩ b).low =
      (if priceLt ⟨o.pays.amount, o.receives.amount⟩ b.low
        then ⟨o.pays.amount, o.receives.amount⟩ else b.low) ∧
    (updateBucket ⟨o.pays.amount, o.receives.amount⟩ b).open_price = b.open_price ∧
    findByKey ⟨0, 1, 60, 60⟩ ohlcStore =
      some ⟨⟨0, 1, 60, 60⟩, 3, 1, 1, 1, 2, 1, 5, 2, 11, 5⟩ := by
  subst hmh
  refine ⟨?_, rfl, rfl, rfl, updateBucket_high _ _, updateBucket_low _ _, rfl,
    by decide⟩
  simp only [processBucket]
  rw [if_neg hfilter, hfind]
  rw [if_neg (not_not_intro rfl)]
  exact findByKey_modifyByKey _ _ hfind
    (by rw [updateBucket_key]; exact findByKey_eq_some_key hfind)

/-- Witness for C4: the third trade of the OHLC scenario applied to the
store holding the bucket created by the first two. -/
theorem C4_update_in_place_witness :
    findByKey ⟨0, 1, 60, 60⟩
        (processBucket 0 100 (ohlcFill 1 1)
          (processFill ⟨[60], 0⟩ 100 (ohlcFill 3 1)
            (processFill ⟨[60], 0⟩ 100 (ohlcFill 2 1) [])) 60) =
      some (updateBucket ⟨1, 1⟩
        (updateBucket ⟨3, 1⟩ (createBucket ⟨0, 1, 60, 60⟩ ⟨2, 1⟩))) := by
  have h := C4_update_in_place 0 100 60 (ohlcFill 1 1)
    (processFill ⟨[60], 0⟩ 100 (ohlcFill 3 1)
      (processFill ⟨[60], 0⟩ 100 (ohlcFill 2 1) []))
    (updateBucket ⟨3, 1⟩ (createBucket ⟨0, 1, 60, 60⟩ ⟨2, 1⟩))
    rfl (by decide) (by decide)
  exact h.1

/-- C5: for an accepted fill at block time `now` and tracked duration `d`,
the slot is `open_time = now / d * d` (a multiple of `d`, not past `now`)
keyed by `(base, quote, d, open_time)`, and when no record exists for that
key a new one is created with open = close = high = low = trade price and
the volumes equal to the trade's amounts. -/
theorem C5_create_bucket (mh now d : Nat) (o : FillOrderOperation)
    (store : List BucketObject)
    (hmh : mh = 0) (hd : 0 < d)
    (hfilter : ¬ o.pays.assetId > o.receives.assetId)
    (hfind : findByKey ⟨o.pays.assetId, o.receives.assetId, d, now / d * d⟩ store =
      none) :
    findByKey ⟨o.pays.assetId, o.receives.assetId, d, now / d * d⟩
        (processBucket mh now o store d) =
      some (createBucket ⟨o.pays.assetId, o.receives.assetId, d, now / d * d⟩
        ⟨o.pays.amount, o.receives.amount⟩) ∧
    now / d * d % d = 0 ∧ now / d * d ≤ now ∧
    (createBucket ⟨o.pays.assetId, o.receives.assetId, d, now / d * d⟩
      ⟨o.pays.amount, o.receives.amount⟩).open_price =
        ⟨o.pays.amount, o.receives.amount⟩ ∧
    (createBucket ⟨o.pays.assetId, o.receives.assetId, d, now / d * d⟩
      ⟨o.pays.amount, o.receives.amount⟩).close_price =
        ⟨o.pays.amount, o.receives.amount⟩ ∧
    (createBucket ⟨o.pays.assetId, o.receives.assetId, d, now / d * d⟩
      ⟨o.pays.amount, o.receives.amount⟩).high =
        ⟨o.pays.amount, o.receives.amount⟩ ∧
    (createBucket ⟨o.pays.assetId, o.receives.assetId, d, now / d * d⟩
      ⟨o.pays.amount, o.receives.amount⟩).low =
        ⟨o.pays.amount, o.receives.amount⟩ ∧
    (createBucket ⟨o.pays.assetId, o.receives.assetId, d, now / d * d⟩
      ⟨o.pays.amount, o.receives.amount⟩).base_volume = o.pays.amount ∧
    (createBucket ⟨o.pays.assetId, o.receives.assetId, d, now / d * d⟩
      ⟨o.pays.amount, o.receives.amount⟩).quote_volume = o.receives.amount := by
  refine ⟨?_, Nat.mul_mod_left _ _, Nat.div_mul_le_self _ _, rfl, rfl, rfl, rfl,
    zero_add _, zero_add _⟩
  subst hmh
  simp only [processBucket]
  rw [if_neg hfilter, hfind]
  rw [if_neg (not_not_intro rfl)]
  exact findByKey_insertByKey
    (createBucket ⟨o.pays.assetId, o.receives.assetId, d, now / d * d⟩
      ⟨o.pays.amount, o.receives.amount⟩) store

/-- Witness for C5: the first trade of the OHLC scenario creates the bucket
opening at 60. -/
theorem C5_create_bucket_witness :
    findByKey ⟨0, 1, 60, 60⟩ (processBucket 0 100 (ohlcFill 2 1) [] 60) =
      some (createBucket ⟨0, 1, 60, 60⟩ ⟨2, 1⟩) := by
  have h := C5_create_bucket 0 100 60 (ohlcFill 2 1) [] rfl (by decide)
    (by decide) (by decide)
  exact h.1

/-- C6: the volumes of a record built from a creating trade followed by any
sequence of further trades equal the sums of the per-trade base and quote
amounts, and each in-place update with non-negative amounts leaves both
volumes no smaller. -/
theorem C6_volume_accumulation (key : BucketKey) (p0 : Price) (ps : List Price)
    (b : BucketObject) (p : Price) (hb : 0 ≤ p.base) (hq : 0 ≤ p.quote) :
    (accumBucket key p0 ps).base_volume = p0.base + (ps.map Price.base).sum ∧
    (accumBucket key p0 ps).quote_volume = p0.quote + (ps.map Price.quote).sum ∧
    b.base_volume ≤ (updateBucket p b).base_volume ∧
    b.quote_volume ≤ (updateBucket p b).quote_volume := by
  refine ⟨?_, ?_, ?_, ?_⟩
  · rw [accumBucket, accumFold_base_volume]
    show 0 + p0.base + _ = _
    ring
  · rw [accumBucket, accumFold_quote_volume]
    show 0 + p0.quote + _ = _
    ring
  · rw [updateBucket_base_volume]
    exact le_add_of_nonneg_right hb
  · rw [updateBucket_quote_volume]
    exact le_add_of_nonneg_right hq

/-- Witness for C6 on the OHLC scenario's trade sequence. -/
theorem C6_volume_accumulation_witness :
    (accumBucket ⟨0, 1, 60, 60⟩ ⟨2, 1⟩ [⟨3, 1⟩, ⟨1, 1⟩, ⟨5, 2⟩]).base_volume =
      2 + ([⟨3, 1⟩, ⟨1, 1⟩, (⟨5, 2⟩ : Price)].map Price.base).sum ∧
    (accumBucket ⟨0, 1, 60, 60⟩ ⟨2, 1⟩ [⟨3, 1⟩, ⟨1, 1⟩, ⟨5, 2⟩]).quote_volume =
      1 + ([⟨3, 1⟩, ⟨1, 1⟩, (⟨5, 2⟩ : Price)].map Price.quote).sum ∧
    (createBucket ⟨0, 1, 60, 60⟩ ⟨2, 1⟩).base_volume ≤
      (updateBucket ⟨3, 1⟩ (createBucket ⟨0, 1, 60, 60⟩ ⟨2, 1⟩)).base_volume ∧
    (createBucket ⟨0, 1, 60, 60⟩ ⟨2, 1⟩).quote_volume ≤
      (updateBucket ⟨3, 1⟩ (createBucket ⟨0, 1, 60, 60⟩ ⟨2, 1⟩)).quote_volume :=
  C6_volume_accumulation ⟨0, 1, 60, 60⟩ ⟨2, 1⟩ [⟨3, 1⟩, ⟨1, 1⟩, ⟨5, 2⟩]
    (createBucket ⟨0, 1, 60, 60⟩ ⟨2, 1⟩) ⟨3, 1⟩ (by decide) (by decide)

/-- C7: every record obtained by creating a bucket from a first trade and
applying any sequence of in-place updates with positive amounts satisfies
`high() >= max(open, close, low)` and `low() <= min(open, close, high)`
under the cross-multiplied comparison — the invariant is established at
creation (the empty update sequence) and preserved by every update. -/
theorem C7_ohlc_invariant (key : BucketKey) (p0 : Price) (ps : List Price)
    (h0 : PosPrice p0) (hs : ∀ p ∈ ps, PosPrice p) :
    recordInvariant (accumBucket key p0 ps) := by
  obtain ⟨hinv, hb⟩ := createBucket_invariant key p0 h0
  exact (accumFold_invariant ps _ hs hb hinv).1

/-- Witness for C7 on the OHLC scenario's trade sequence. -/
theorem C7_ohlc_invariant_witness :
    recordInvariant (accumBucket ⟨0, 1, 60, 60⟩ ⟨2, 1⟩ [⟨3, 1⟩, ⟨1, 1⟩, ⟨5, 2⟩]) :=
  C7_ohlc_invariant ⟨0, 1, 60, 60⟩ ⟨2, 1⟩ [⟨3, 1⟩, ⟨1, 1⟩, ⟨5, 2⟩]
    (by decide) (by decide)

/-- C8: block processing is deterministic — the bucket store produced by a
replay is a function of the configuration and of the ordered block sequence
alone (the embedding fixes the iteration orders the source uses: the
ascending `flat_set` of tracked durations and the as-applied operation
list), so two replays of equal block sequences from the empty store under
equal configurations produce identical record contents. -/
theorem C8_deterministic_replay (cfg1 cfg2 : Config)
    (bs1 bs2 : List SignedBlock) (hc : cfg1 = cfg2) (hb : bs1 = bs2) :
    replayBlocks cfg1 bs1 = replayBlocks cfg2 bs2 := by
  rw [hc, hb]

/-- Witness for C8 on the eviction scenario's block sequence. -/
theorem C8_deterministic_replay_witness :
    replayBlocks ⟨[60], 3⟩
        [⟨596340, [exampleFillOp]⟩, ⟨599820, [exampleFillOp]⟩, ⟨600000, [exampleFillOp]⟩] =
      replayBlocks ⟨[60], 3⟩
        [⟨596340, [exampleFillOp]⟩, ⟨599820, [exampleFillOp]⟩, ⟨600000, [exampleFillOp]⟩] :=
  C8_deterministic_replay ⟨[60], 3⟩ ⟨[60], 3⟩ _ _ rfl rfl

/-- C9: the visitor's catch-all (lines 70-71) makes every non-fill
operation variant — among them witness creation and witness pay withdrawal
— a no-op on the bucket store. -/
theorem C9_non_fill_noop (cfg : Config) (now : Nat) (store : List BucketObject)
    (op : Operation) (h : op.isFill = false) :
    processOperation cfg now store op = store := by
  cases op with
  | fill_order o => simp [Operation.isFill] at h
  | witness_create => rfl
  | witness_withdraw_pay => rfl
  | other tag => rfl

/-- Witness for C9: a witness-creation operation leaves a non-empty store
unchanged. -/
theorem C9_non_fill_noop_witness :
    processOperation ⟨[60], 3⟩ 600000 [createBucket ⟨0, 1, 60, 60⟩ ⟨2, 1⟩]
        Operation.witness_create =
      [createBucket ⟨0, 1, 60, 60⟩ ⟨2, 1⟩] :=
  C9_non_fill_noop ⟨[60], 3⟩ 600000 [createBucket ⟨0, 1, 60, 60⟩ ⟨2, 1⟩]
    Operation.witness_create rfl

/-- C10: a fill whose pays and receives asset ids are equal passes the
strict `base > quote` filter, so both symmetric events of such a degenerate
trade land in the same bucket: processing both yields volumes (3, 3) — the
sum over both events — where processing one alone yields (2, 1). -/
theorem C10_equal_ids_double_count :
    ¬ degenA.pays.assetId > degenA.receives.assetId ∧
    ¬ degenB.pays.assetId > degenB.receives.assetId ∧
    (findByKey ⟨5, 5, 60, 0⟩
        (processFill ⟨[60], 0⟩ 0 degenB (processFill ⟨[60], 0⟩ 0 degenA []))).map
      (fun b => (b.base_volume, b.quote_volume)) = some (3, 3) ∧
    (findByKey ⟨5, 5, 60, 0⟩ (processFill ⟨[60], 0⟩ 0 degenA [])).map
      (fun b => (b.base_volume, b.quote_volume)) = some (2, 1) := by
  decide

end MarketHistory
